import Mathlib

/-!
Verification of the conversation-state core of the GPT-Image interactive
editor (`src/app.py`): base64 helpers, the per-session state, the upload /
reset / prompt handlers, and the request-payload builder, embedded shallowly
as pure Lean functions over explicit state.
-/

namespace GptImage

/-! ### Base64 (`encode_b64` / `decode_b64`, app.py lines 38-39)

`encode_b64 = lambda b: base64.b64encode(b).decode("utf-8")` and
`decode_b64 = lambda s: base64.b64decode(s)`. Bytes are `Nat`s below 256.
`encodeB64` is RFC 4648 base64 with `=` padding, the algorithm of
`base64.b64encode`; `decodeB64` models `base64.b64decode`, which consumes
groups of four characters and stops at the first `=` padding character. -/

/-- The standard base64 alphabet used by `base64.b64encode`. -/
def b64chars : List Char :=
  "ABCDEFGHIJKLMNOPQRSTUVWXYZabcdefghijklmnopqrstuvwxyz0123456789+/".toList

/-- Character for a six-bit group. -/
def b64tbl (n : Nat) : Char := b64chars.getD n '='

/-- Six-bit value of an alphabet character. -/
def b64val (ch : Char) : Nat := b64chars.indexOf ch

/-- `base64.b64encode` on a byte list: three bytes become four alphabet
characters; a final group of one or two bytes is padded with `=`. -/
def encodeB64 : List Nat → List Char
  | [] => []
  | [a] => [b64tbl (a / 4), b64tbl (a % 4 * 16), '=', '=']
  | [a, b] => [b64tbl (a / 4), b64tbl (a % 4 * 16 + b / 16), b64tbl (b % 16 * 4), '=']
  | a :: b :: c :: rest =>
      b64tbl (a / 4) :: b64tbl (a % 4 * 16 + b / 16) :: b64tbl (b % 16 * 4 + c / 64) ::
        b64tbl (c % 64) :: encodeB64 rest

/-- `base64.b64decode` on well-formed input: four characters at a time,
stopping at the first `=` padding character; input whose length is not a
multiple of four is rejected (`binascii.Error` in Python, `none` here). -/
def decodeB64 : List Char → Option (List Nat)
  | [] => some []
  | w :: x :: y :: z :: rest =>
      if y = '=' then some [b64val w * 4 + b64val x / 16]
      else if z = '=' then
        some [b64val w * 4 + b64val x / 16, b64val x % 16 * 16 + b64val y / 4]
      else
        (decodeB64 rest).map fun r =>
          (b64val w * 4 + b64val x / 16) :: (b64val x % 16 * 16 + b64val y / 4) ::
            (b64val y % 4 * 64 + b64val z) :: r
  | _ => none

/-- `encode_b64` of app.py: bytes to a base64 string. -/
def encode_b64 (b : List Nat) : String := String.mk (encodeB64 b)

/-- `decode_b64` of app.py: a base64 string back to bytes. -/
def decode_b64 (s : String) : Option (List Nat) := decodeB64 s.data

theorem b64val_b64tbl : ∀ n < 64, b64val (b64tbl n) = n := by decide

theorem b64tbl_ne_pad : ∀ n < 64, b64tbl n ≠ '=' := by decide

theorem decodeB64_pad2 (w x : Char) :
    decodeB64 [w, x, '=', '='] = some [b64val w * 4 + b64val x / 16] := by
  simp [decodeB64]

theorem decodeB64_pad1 (w x y : Char) (hy : y ≠ '=') :
    decodeB64 [w, x, y, '='] =
      some [b64val w * 4 + b64val x / 16, b64val x % 16 * 16 + b64val y / 4] := by
  simp [decodeB64, hy]

theorem decodeB64_cons (w x y z : Char) (rest : List Char)
    (hy : y ≠ '=') (hz : z ≠ '=') :
    decodeB64 (w :: x :: y :: z :: rest) =
      (decodeB64 rest).map fun r =>
        (b64val w * 4 + b64val x / 16) :: (b64val x % 16 * 16 + b64val y / 4) ::
          (b64val y % 4 * 64 + b64val z) :: r := by
  simp [decodeB64, hy, hz]

theorem decodeB64_encodeB64 (b : List Nat) (hb : ∀ x ∈ b, x < 256) :
    decodeB64 (encodeB64 b) = some b := by
  induction b using encodeB64.induct with
  | case1 => rfl
  | case2 a =>
      have ha : a < 256 := hb a (by simp)
      rw [show encodeB64 [a] = [b64tbl (a / 4), b64tbl (a % 4 * 16), '=', '='] from rfl,
        decodeB64_pad2, b64val_b64tbl _ (by omega), b64val_b64tbl _ (by omega)]
      have h1 : a / 4 * 4 + a % 4 * 16 / 16 = a := by omega
      rw [h1]
  | case3 a b =>
      have ha : a < 256 := hb a (by simp)
      have hbb : b < 256 := hb b (by simp)
      rw [show encodeB64 [a, b] = [b64tbl (a / 4), b64tbl (a % 4 * 16 + b / 16),
          b64tbl (b % 16 * 4), '='] from rfl,
        decodeB64_pad1 _ _ _ (b64tbl_ne_pad _ (by omega)),
        b64val_b64tbl _ (by omega), b64val_b64tbl _ (by omega),
        b64val_b64tbl _ (by omega)]
      have h1 : a / 4 * 4 + (a % 4 * 16 + b / 16) / 16 = a := by omega
      have h2 : (a % 4 * 16 + b / 16) % 16 * 16 + b % 16 * 4 / 4 = b := by omega
      rw [h1, h2]
  | case4 a b c rest ih =>
      have ha : a < 256 := hb a (by simp)
      have hbb : b < 256 := hb b (by simp)
      have hc : c < 256 := hb c (by simp)
      have hrest : ∀ x ∈ rest, x < 256 := fun x hx => hb x (by simp [hx])
      rw [show encodeB64 (a :: b :: c :: rest) = b64tbl (a / 4) ::
          b64tbl (a % 4 * 16 + b / 16) :: b64tbl (b % 16 * 4 + c / 64) ::
          b64tbl (c % 64) :: encodeB64 rest from rfl,
        decodeB64_cons _ _ _ _ _ (b64tbl_ne_pad _ (by omega)) (b64tbl_ne_pad _ (by omega)),
        ih hrest,
        b64val_b64tbl _ (by omega), b64val_b64tbl _ (by omega),
        b64val_b64tbl _ (by omega), b64val_b64tbl _ (by omega)]
      have h1 : a / 4 * 4 + (a % 4 * 16 + b / 16) / 16 = a := by omega
      have h2 : (a % 4 * 16 + b / 16) % 16 * 16 + (b % 16 * 4 + c / 64) / 4 = b := by omega
      have h3 : (b % 16 * 4 + c / 64) % 4 * 64 + c % 64 = c := by omega
      rw [h1, h2, h3]
      rfl

/-- C10: decoding the base64 encoding of any byte string yields exactly the
original bytes: `decode_b64 (encode_b64 b) = b`. -/
theorem base64_roundtrip (b : List Nat) (hb : ∀ x ∈ b, x < 256) :
    decode_b64 (encode_b64 b) = some b :=
  decodeB64_encodeB64 b hb

/-- C10 witness: the round trip on the concrete byte string `[77, 0, 255]`. -/
theorem base64_roundtrip_witness :
    decode_b64 (encode_b64 [77, 0, 255]) = some [77, 0, 255] :=
  base64_roundtrip [77, 0, 255] (by decide)

/-! ### Session state (app.py lines 45-54)

`st.session_state` has four components: `original_image_b64` and
`last_image_b64` (Python `None` or a base64 string, so `Option String`),
the API transcript `chat_history` and the display log `chat_display`. -/

/-- One entry of `chat_history`: `{role: "user"/"assistant", text: str}`. -/
structure Turn where
  role : String
  text : String
deriving DecidableEq, Repr

/-- One entry of `chat_display`: `{role, kind: "text"/"image", data: str}`. -/
structure DisplayEntry where
  role : String
  kind : String
  data : String
deriving DecidableEq, Repr

/-- The per-session state of app.py. -/
structure SessionState where
  original_image_b64 : Option String
  last_image_b64 : Option String
  chat_history : List Turn
  chat_display : List DisplayEntry
deriving DecidableEq, Repr

/-- Session start (app.py lines 45-54): both images `None`, both logs empty. -/
def initialState : SessionState :=
  { original_image_b64 := none
    last_image_b64 := none
    chat_history := []
    chat_display := [] }

/-- The reset button handler (app.py lines 69-73): sets both images to `None`
and clears both logs. -/
def resetSession (s : SessionState) : SessionState :=
  { s with
    original_image_b64 := none
    last_image_b64 := none
    chat_history := []
    chat_display := [] }

/-- The upload handler (app.py lines 92-96): when `original_image_b64 is None`,
store the base64 encoding of the uploaded bytes in both image slots and clear
both logs; otherwise the upload is ignored. -/
def uploadImage (s : SessionState) (raw : List Nat) : SessionState :=
  if s.original_image_b64 = none then
    { s with
      original_image_b64 := some (encode_b64 raw)
      last_image_b64 := some (encode_b64 raw)
      chat_history := []
      chat_display := [] }
  else s

/-! ### Response output items and the parsing loop (app.py lines 168-182)

An output item is a message (whose content pieces each optionally carry a
`text` attribute, read with `getattr(c, "text", None)`), an
`image_generation_call` carrying a `result` string, or an item of any other
type, which the loop ignores. -/

/-- One item of `response.output`. -/
inductive OutputItem where
  | message (content : List (Option String))
  | image_generation_call (result : String)
  | other (ty : String)
deriving DecidableEq, Repr

/-- The inner loop over a message's content: `txt = getattr(c, "text", None);
if txt: assistant_text.append(txt)` — a piece contributes exactly when it has
a text attribute and that text is non-empty (Python truthiness). -/
def pieceTexts (content : List (Option String)) : List String :=
  content.filterMap fun c =>
    match c with
    | some t => if t = "" then none else some t
    | none => none

/-- The `for out in response.output` loop, accumulators made explicit:
`texts` is `assistant_text`, `img` is `assistant_img_b64` (each
`image_generation_call` overwrites it, so the last one wins). -/
def parseLoop (texts : List String) (img : Option String) :
    List OutputItem → List String × Option String
  | [] => (texts, img)
  | OutputItem.message content :: rest => parseLoop (texts ++ pieceTexts content) img rest
  | OutputItem.image_generation_call r :: rest => parseLoop texts (some r) rest
  | OutputItem.other _ :: rest => parseLoop texts img rest

/-- The loop started from its initial accumulators `[]` and `None`. -/
def parseOutputs (outputs : List OutputItem) : List String × Option String :=
  parseLoop [] none outputs

/-- Python's `str.strip()`: drop whitespace characters from both ends,
modelled directly on the string's character list (`String.trim` is
extensionally the same but does not reduce inside the kernel). -/
def pyStrip (s : String) : String :=
  String.mk (((s.data.dropWhile Char.isWhitespace).reverse.dropWhile
    Char.isWhitespace).reverse)

/-- `full_assistant_text = "\n".join(assistant_text).strip()` (line 182). -/
def fullAssistantText (outputs : List OutputItem) : String :=
  pyStrip (String.intercalate "\n" (parseOutputs outputs).1)

/-- The state update of the prompt handler (app.py lines 188-209): append the
user turn to both logs; append an assistant text turn to both logs when
`full_assistant_text` is non-empty; when `assistant_img_b64` is truthy
(not `None` and non-empty), set `last_image_b64` to it and append an
assistant image entry to the display log only. -/
def applyResponse (s : SessionState) (user_prompt : String)
    (outputs : List OutputItem) : SessionState :=
  let t := fullAssistantText outputs
  let img := (parseOutputs outputs).2
  let s1 : SessionState := { s with
    chat_history := s.chat_history ++ [{ role := "user", text := user_prompt }]
    chat_display := s.chat_display ++
      [{ role := "user", kind := "text", data := user_prompt }] }
  let s2 : SessionState :=
    if t = "" then s1
    else { s1 with
      chat_history := s1.chat_history ++ [{ role := "assistant", text := t }]
      chat_display := s1.chat_display ++
        [{ role := "assistant", kind := "text", data := t }] }
  match img with
  | some r =>
      if r = "" then s2
      else { s2 with
        last_image_b64 := some r
        chat_display := s2.chat_display ++
          [{ role := "assistant", kind := "image", data := r }] }
  | none => s2

/-! ### The request payload (app.py lines 115-150) -/

/-- One content dict of a request turn: either
`{"type": t, "text": s}` or `{"type": t, "image_url": u}`. -/
inductive ContentItem where
  | textContent (ty : String) (text : String)
  | imageContent (ty : String) (image_url : String)
deriving DecidableEq, Repr

/-- One request turn: `{"role": r, "content": [...]}`. -/
structure Message where
  role : String
  content : List ContentItem
deriving DecidableEq, Repr

/-- The `f"data:image/jpeg;base64,{...}"` interpolation; a Python f-string
renders `None` as the text `None` (the handler's guard keeps that case from
ever being sent). -/
def dataUri (o : Option String) : String :=
  "data:image/jpeg;base64," ++ (match o with | some v => v | none => "None")

/-- `build_payload` (app.py lines 115-150): one turn per `chat_history` entry,
appended in insertion order — tag `input_text` for role `user`, `output_text`
otherwise — followed by the current user turn carrying the prompt text and the
current image as a data URI. -/
def build_payload (s : SessionState) (user_prompt : String) : List Message :=
  let messages := s.chat_history.foldl
    (fun msgs msg =>
      let input_type := if msg.role = "user" then "input_text" else "output_text"
      msgs ++ [{ role := msg.role
                 content := [ContentItem.textContent input_type msg.text] }])
    []
  messages ++ [{ role := "user"
                 content := [ContentItem.textContent "input_text" user_prompt,
                   ContentItem.imageContent "input_image" (dataUri s.last_image_b64)] }]

/-- The prompt handler (app.py lines 153-209): if no image was uploaded yet
(`original_image_b64 is None`), show an error and stop with the state
untouched — `build_payload` is never reached; otherwise send the payload and
fold the response outputs into the state via the update sequence. -/
def submitPrompt (s : SessionState) (user_prompt : String)
    (outputs : List OutputItem) : Except String SessionState :=
  if s.original_image_b64 = none then
    Except.error "Please upload an image first."
  else
    Except.ok (applyResponse s user_prompt outputs)

/-- One user action on the session. A prompt action carries the response
outputs the remote service returns for it. -/
inductive Op where
  | reset
  | upload (raw : List Nat)
  | prompt (p : String) (outputs : List OutputItem)
deriving Repr

/-- The state after one action; a prompt rejected by the missing-image guard
leaves the state as it was. -/
def step (s : SessionState) : Op → SessionState
  | Op.reset => resetSession s
  | Op.upload raw => uploadImage s raw
  | Op.prompt p outputs =>
      match submitPrompt s p outputs with
      | Except.ok s2 => s2
      | Except.error _ => s

/-- The state after a sequence of actions. -/
def run (s : SessionState) : List Op → SessionState
  | [] => s
  | op :: ops => run (step s op) ops

/-- A sequence of successful prompt turns: `applyResponse` folded over
(prompt, outputs) pairs. -/
def applyMany (s : SessionState) : List (String × List OutputItem) → SessionState
  | [] => s
  | pr :: rest => applyMany (applyResponse s pr.1 pr.2) rest

/-! ### Characterising the parsing loop -/

/-- The result strings of the `image_generation_call` items, in order. -/
def imageResults (outputs : List OutputItem) : List String :=
  outputs.filterMap fun o =>
    match o with
    | OutputItem.image_generation_call r => some r
    | _ => none

/-- Spec-side reading of step 1 of `applyResponse` (§4.1 of the spec): the
non-empty text pieces of all message items, in encounter order. -/
def specAssistantTexts (outputs : List OutputItem) : List String :=
  (outputs.map fun o =>
    match o with
    | OutputItem.message content => pieceTexts content
    | _ => []).flatten

/-- What repeated overwriting of `assistant_img_b64` computes: the last
element when the list is non-empty, the starting value otherwise. -/
def lastWins (l : List String) (img : Option String) : Option String :=
  match l.getLast? with
  | some r => some r
  | none => img

theorem lastWins_cons (a : String) (l : List String) (img : Option String) :
    lastWins (a :: l) img = lastWins l (some a) := by
  cases l with
  | nil => rfl
  | cons b t =>
      rw [lastWins, lastWins, List.getLast?_cons_cons]
      rcases h : (b :: t).getLast? with _ | r
      · exact absurd (List.getLast?_eq_none_iff.mp h) (by simp)
      · rfl

theorem parseLoop_eq (outputs : List OutputItem) : ∀ (texts : List String)
    (img : Option String),
    parseLoop texts img outputs =
      (texts ++ specAssistantTexts outputs, lastWins (imageResults outputs) img) := by
  induction outputs with
  | nil => intro texts img; simp [parseLoop, specAssistantTexts, imageResults, lastWins]
  | cons o rest ih =>
      intro texts img
      cases o with
      | message content =>
          simp [parseLoop, specAssistantTexts, imageResults, ih]
      | image_generation_call r =>
          simp [parseLoop, specAssistantTexts, imageResults, ih, lastWins_cons]
      | other ty =>
          simp [parseLoop, specAssistantTexts, imageResults, ih]

theorem parseOutputs_eq (outputs : List OutputItem) :
    parseOutputs outputs = (specAssistantTexts outputs, (imageResults outputs).getLast?) := by
  rw [parseOutputs, parseLoop_eq]
  cases h : (imageResults outputs).getLast? <;> simp [lastWins, h]

/-- `applyResponse` reads its outputs only through the parsing loop. -/
theorem applyResponse_congr (s : SessionState) (p : String)
    (o1 o2 : List OutputItem) (h : parseOutputs o1 = parseOutputs o2) :
    applyResponse s p o1 = applyResponse s p o2 := by
  simp [applyResponse, fullAssistantText, h]

/-! ### Field-wise description of one `applyResponse` step -/

theorem applyResponse_original (s : SessionState) (p : String) (o : List OutputItem) :
    (applyResponse s p o).original_image_b64 = s.original_image_b64 := by
  rw [applyResponse]
  rcases h2 : (parseOutputs o).2 with _ | r
  · by_cases ht : fullAssistantText o = "" <;> simp [ht, h2]
  · by_cases ht : fullAssistantText o = "" <;> by_cases hr : r = "" <;>
      simp [ht, h2, hr]

theorem applyResponse_chat_history (s : SessionState) (p : String) (o : List OutputItem) :
    (applyResponse s p o).chat_history = s.chat_history ++
      (if fullAssistantText o = "" then [{ role := "user", text := p }]
       else [{ role := "user", text := p },
         { role := "assistant", text := fullAssistantText o }]) := by
  rw [applyResponse]
  rcases h2 : (parseOutputs o).2 with _ | r
  · by_cases ht : fullAssistantText o = "" <;> simp [ht, h2]
  · by_cases ht : fullAssistantText o = "" <;> by_cases hr : r = "" <;>
      simp [ht, h2, hr]

theorem applyResponse_chat_display (s : SessionState) (p : String) (o : List OutputItem) :
    (applyResponse s p o).chat_display = s.chat_display ++
      ({ role := "user", kind := "text", data := p } ::
        ((if fullAssistantText o = "" then []
          else [{ role := "assistant", kind := "text", data := fullAssistantText o }]) ++
          (match (parseOutputs o).2 with
            | some r => if r = "" then []
                else [{ role := "assistant", kind := "image", data := r }]
            | none => []))) := by
  rw [applyResponse]
  rcases h2 : (parseOutputs o).2 with _ | r
  · by_cases ht : fullAssistantText o = "" <;> simp [ht, h2]
  · by_cases ht : fullAssistantText o = "" <;> by_cases hr : r = "" <;>
      simp [ht, h2, hr]

theorem applyResponse_last (s : SessionState) (p : String) (o : List OutputItem) :
    (applyResponse s p o).last_image_b64 =
      (match (parseOutputs o).2 with
        | some r => if r = "" then s.last_image_b64 else some r
        | none => s.last_image_b64) := by
  rw [applyResponse]
  rcases h2 : (parseOutputs o).2 with _ | r
  · by_cases ht : fullAssistantText o = "" <;> simp [ht, h2]
  · by_cases ht : fullAssistantText o = "" <;> by_cases hr : r = "" <;>
      simp [ht, h2, hr]

/-! ### The shape of the API transcript (C1) -/

/-- The transcript shapes `applyResponse` can build: a concatenation of
blocks, each either a lone user turn or a user turn followed by an assistant
turn. Strict user/assistant index alternation would additionally require that
no lone-user block is followed by anything. -/
def blocksOK : List Turn → Bool
  | [] => true
  | [t] => t.role == "user"
  | t :: u :: rest =>
      if u.role == "assistant" then t.role == "user" && blocksOK rest
      else t.role == "user" && blocksOK (u :: rest)

theorem blocksOK_append_user (l : List Turn) (p : String) (hl : blocksOK l = true) :
    blocksOK (l ++ [{ role := "user", text := p }]) = true := by
  induction l using blocksOK.induct with
  | case1 => simp [blocksOK]
  | case2 t =>
      simp only [blocksOK] at hl
      simp [blocksOK, hl]
  | case3 t u rest h ih =>
      simp only [blocksOK, h, if_true, Bool.and_eq_true] at hl
      simp [blocksOK, h, hl.1, ih hl.2]
  | case4 t u rest h ih =>
      simp [blocksOK, h] at hl
      simp only [List.cons_append, blocksOK, h, if_false]
      simpa [hl.1] using ih hl.2

theorem blocksOK_append_pair (l : List Turn) (p a : String) (hl : blocksOK l = true) :
    blocksOK (l ++ [{ role := "user", text := p },
      { role := "assistant", text := a }]) = true := by
  induction l using blocksOK.induct with
  | case1 => simp [blocksOK]
  | case2 t =>
      simp only [blocksOK] at hl
      simp [blocksOK, hl]
  | case3 t u rest h ih =>
      simp only [blocksOK, h, if_true, Bool.and_eq_true] at hl
      simp [blocksOK, h, hl.1, ih hl.2]
  | case4 t u rest h ih =>
      simp [blocksOK, h] at hl
      simp only [List.cons_append, blocksOK, h, if_false]
      simpa [hl.1] using ih hl.2

theorem blocksOK_applyResponse (s : SessionState) (p : String) (o : List OutputItem)
    (hs : blocksOK s.chat_history = true) :
    blocksOK (applyResponse s p o).chat_history = true := by
  rw [applyResponse_chat_history]
  by_cases ht : fullAssistantText o = ""
  · simpa [ht] using blocksOK_append_user s.chat_history p hs
  · simpa [ht] using blocksOK_append_pair s.chat_history p (fullAssistantText o) hs

theorem blocksOK_applyMany (prs : List (String × List OutputItem)) :
    ∀ s : SessionState, blocksOK s.chat_history = true →
      blocksOK (applyMany s prs).chat_history = true := by
  induction prs with
  | nil => intro s hs; exact hs
  | cons pr rest ih =>
      intro s hs
      exact ih _ (blocksOK_applyResponse s pr.1 pr.2 hs)

/-- C1 counterexample: two prompts whose responses carry no message text.
After the upload, the transcript of the second `applyResponse` is two adjacent
`"user"` turns — the entry at odd index 1 has role `"user"`, not
`"assistant"`, and the two adjacent entries share a role. -/
theorem alternation_counterexample :
    (applyMany (uploadImage initialState [1]) [("a", []), ("b", [])]).chat_history =
      [{ role := "user", text := "a" }, { role := "user", text := "b" }] ∧
    ("user" : String) ≠ "assistant" := by
  refine ⟨?_, by decide⟩
  have h0 : fullAssistantText ([] : List OutputItem) = "" := by decide
  rw [show applyMany (uploadImage initialState [1]) [("a", []), ("b", [])] =
      applyResponse (applyResponse (uploadImage initialState [1]) "a" []) "b" []
    from rfl]
  rw [applyResponse_chat_history, applyResponse_chat_history, h0]
  simp [uploadImage, initialState]

/-- C1 amended: after an upload, the transcript any sequence of
`applyResponse` calls builds is a concatenation of blocks `[user]` or
`[user, assistant]` (so the first entry is a user turn and every assistant
turn directly follows a user turn) — but strict index alternation can fail:
a response with empty assistant text appends a lone user turn, so two
adjacent user turns occur. -/
theorem alternation_blocks (raw : List Nat) (prs : List (String × List OutputItem)) :
    blocksOK ((applyMany (uploadImage initialState raw) prs).chat_history) = true := by
  apply blocksOK_applyMany
  simp [uploadImage, initialState, blocksOK]

/-! ### The missing-image guard (C5) -/

/-- C5: a prompt submitted while no image has been uploaded
(`original_image_b64 is None`) fails with the user-visible error, and the
whole session state — both image slots, the API transcript and the display
log — is exactly what it was; the error return means `build_payload` is
never reached. -/
theorem missing_image_guard (c : Option String) (hist : List Turn)
    (disp : List DisplayEntry) (p : String) (o : List OutputItem) :
    submitPrompt ⟨none, c, hist, disp⟩ p o =
      Except.error "Please upload an image first." ∧
    step ⟨none, c, hist, disp⟩ (Op.prompt p o) = ⟨none, c, hist, disp⟩ := by
  constructor
  · rfl
  · rfl

/-! ### Upload (C6) -/

/-- C6: a first upload (no original image yet) sets both image slots to the
base64 encoding of the uploaded bytes and empties both logs; once an original
image is present, an upload changes nothing at all. -/
theorem upload_spec (raw : List Nat) (c : Option String) (o : String)
    (hist : List Turn) (disp : List DisplayEntry) :
    uploadImage ⟨none, c, hist, disp⟩ raw =
      ⟨some (encode_b64 raw), some (encode_b64 raw), [], []⟩ ∧
    uploadImage ⟨some o, c, hist, disp⟩ raw = ⟨some o, c, hist, disp⟩ := by
  constructor
  · rfl
  · simp [uploadImage]

/-! ### Who may touch the original image (C7) -/

/-- C7: `ImageState.original` is never changed by `applyResponse` (nor by the
guarded prompt step; `build_payload` is a pure function of the state and
returns only the payload); an upload onto a non-empty state changes nothing,
an upload onto the empty state sets the original from absent to the encoded
bytes, and reset sets it back to absent. -/
theorem original_image_frame :
    (∀ (s : SessionState) (p : String) (o : List OutputItem),
      (applyResponse s p o).original_image_b64 = s.original_image_b64) ∧
    (∀ (s : SessionState) (p : String) (o : List OutputItem),
      (step s (Op.prompt p o)).original_image_b64 = s.original_image_b64) ∧
    (∀ (raw : List Nat) (c : Option String) (oimg : String)
      (hist : List Turn) (disp : List DisplayEntry),
      uploadImage ⟨some oimg, c, hist, disp⟩ raw = ⟨some oimg, c, hist, disp⟩) ∧
    (∀ (raw : List Nat) (c : Option String) (hist : List Turn)
      (disp : List DisplayEntry),
      (uploadImage ⟨none, c, hist, disp⟩ raw).original_image_b64 =
        some (encode_b64 raw)) ∧
    (∀ s : SessionState, (resetSession s).original_image_b64 = none) := by
  refine ⟨fun s p o => applyResponse_original s p o, fun s p o => ?_,
    fun raw c oimg hist disp => by simp [uploadImage], fun raw c hist disp => rfl,
    fun s => rfl⟩
  rw [step, submitPrompt]
  by_cases h : s.original_image_b64 = none
  · simp [h]
  · simp [h, applyResponse_original]

/-! ### The request payload (C2) -/

theorem payload_foldl (hist : List Turn) : ∀ acc : List Message,
    hist.foldl
      (fun msgs msg =>
        msgs ++ [{ role := msg.role
                   content := [ContentItem.textContent
                     (if msg.role = "user" then "input_text" else "output_text")
                     msg.text] }]) acc =
      acc ++ hist.map fun msg =>
        ({ role := msg.role
           content := [ContentItem.textContent
             (if msg.role = "user" then "input_text" else "output_text")
             msg.text] } : Message) := by
  induction hist with
  | nil => intro acc; simp
  | cons msg rest ih => intro acc; simp [List.foldl_cons, ih]

/-- C2: the payload is one request turn per transcript entry, in insertion
order, each carrying the entry's role and exactly one text content item —
tagged `input_text` for a user entry and `output_text` for an assistant entry
— followed by exactly one final `user` turn whose content is the prompt as
`input_text` and then the current image as an `input_image` data URI; the
payload's length is the transcript's length plus one (no truncation). -/
theorem build_payload_spec (o : Option String) (img p : String)
    (hist : List Turn) (disp : List DisplayEntry) :
    build_payload ⟨o, some img, hist, disp⟩ p =
      (hist.map fun msg =>
        ({ role := msg.role
           content := [ContentItem.textContent
             (if msg.role = "user" then "input_text" else "output_text")
             msg.text] } : Message)) ++
      [{ role := "user"
         content := [ContentItem.textContent "input_text" p,
           ContentItem.imageContent "input_image"
             ("data:image/jpeg;base64," ++ img)] }] ∧
    (build_payload ⟨o, some img, hist, disp⟩ p).length = hist.length + 1 := by
  have h1 : build_payload ⟨o, some img, hist, disp⟩ p =
      (hist.map fun msg =>
        ({ role := msg.role
           content := [ContentItem.textContent
             (if msg.role = "user" then "input_text" else "output_text")
             msg.text] } : Message)) ++
      [{ role := "user"
         content := [ContentItem.textContent "input_text" p,
           ContentItem.imageContent "input_image"
             ("data:image/jpeg;base64," ++ img)] }] := by
    simp only [build_payload, dataUri]
    rw [payload_foldl]
    simp
  exact ⟨h1, by rw [h1]; simp⟩

/-! ### Assistant text extraction (C3) -/

/-- `true` for the item kinds the parsing loop has a branch for. -/
def keepKnownItem : OutputItem → Bool
  | OutputItem.other _ => false
  | _ => true

/-- Remove from a message item the content pieces with no text attribute. -/
def dropTextlessPieces : OutputItem → OutputItem
  | OutputItem.message content => OutputItem.message (content.filter Option.isSome)
  | o => o

theorem pieceTexts_filter_isSome (content : List (Option String)) :
    pieceTexts (content.filter Option.isSome) = pieceTexts content := by
  induction content with
  | nil => rfl
  | cons c rest ih =>
      cases c with
      | none => simpa [pieceTexts] using ih
      | some t =>
          have h2 : pieceTexts (some t :: rest.filter Option.isSome) =
              pieceTexts (some t :: rest) := by
            by_cases h : t = "" <;>
              simp only [pieceTexts, List.filterMap_cons, h, if_true, if_false] <;>
                simpa [pieceTexts] using ih
          simpa [List.filter_cons] using h2

theorem specAssistantTexts_filter_known (outputs : List OutputItem) :
    specAssistantTexts (outputs.filter keepKnownItem) = specAssistantTexts outputs := by
  induction outputs with
  | nil => rfl
  | cons o rest ih => cases o <;> simp [specAssistantTexts, keepKnownItem] <;>
      simpa [specAssistantTexts] using ih

theorem imageResults_filter_known (outputs : List OutputItem) :
    imageResults (outputs.filter keepKnownItem) = imageResults outputs := by
  induction outputs with
  | nil => rfl
  | cons o rest ih => cases o <;> simp [imageResults, keepKnownItem, List.filterMap_cons] <;>
      simpa [imageResults] using ih

theorem specAssistantTexts_drop_textless (outputs : List OutputItem) :
    specAssistantTexts (outputs.map dropTextlessPieces) = specAssistantTexts outputs := by
  induction outputs with
  | nil => rfl
  | cons o rest ih => cases o <;>
      simp [specAssistantTexts, dropTextlessPieces, pieceTexts_filter_isSome] <;>
        simpa [specAssistantTexts] using ih

theorem imageResults_drop_textless (outputs : List OutputItem) :
    imageResults (outputs.map dropTextlessPieces) = imageResults outputs := by
  induction outputs with
  | nil => rfl
  | cons o rest ih => cases o <;>
      simp [imageResults, dropTextlessPieces, List.filterMap_cons] <;>
        simpa [imageResults] using ih

/-- C3: `assistantText` is the newline-join, in encounter order, of every
non-empty text piece of every message item, stripped of surrounding
whitespace; output items of any other type contribute nothing to the
resulting state, and neither does a message content piece without a text
field. -/
theorem assistant_text_spec :
    (∀ outputs : List OutputItem,
      fullAssistantText outputs =
        pyStrip (String.intercalate "\n" (specAssistantTexts outputs))) ∧
    (∀ (s : SessionState) (p : String) (outputs : List OutputItem),
      applyResponse s p (outputs.filter keepKnownItem) = applyResponse s p outputs) ∧
    (∀ (s : SessionState) (p : String) (outputs : List OutputItem),
      applyResponse s p (outputs.map dropTextlessPieces) = applyResponse s p outputs) := by
  refine ⟨fun outputs => ?_, fun s p outputs => applyResponse_congr _ _ _ _ ?_,
    fun s p outputs => applyResponse_congr _ _ _ _ ?_⟩
  · rw [fullAssistantText, parseOutputs_eq]
  · rw [parseOutputs_eq, parseOutputs_eq, specAssistantTexts_filter_known,
      imageResults_filter_known]
  · rw [parseOutputs_eq, parseOutputs_eq, specAssistantTexts_drop_textless,
      imageResults_drop_textless]

/-! ### The last image wins (C4) -/

/-- Keep, of the `image_generation_call` items, only the last one; every
other item is kept unchanged in its place. -/
def keepLastImage : List OutputItem → List OutputItem
  | [] => []
  | OutputItem.image_generation_call r :: rest =>
      if imageResults rest = [] then OutputItem.image_generation_call r :: rest
      else keepLastImage rest
  | o :: rest => o :: keepLastImage rest

theorem getLast?_cons_of_ne_nil {α : Type} (a : α) {l : List α} (h : l ≠ []) :
    (a :: l).getLast? = l.getLast? := by
  cases l with
  | nil => exact absurd rfl h
  | cons b t => exact List.getLast?_cons_cons

theorem specAssistantTexts_keepLastImage (outputs : List OutputItem) :
    specAssistantTexts (keepLastImage outputs) = specAssistantTexts outputs := by
  induction outputs using keepLastImage.induct with
  | case1 => rfl
  | case2 r rest h => rw [keepLastImage, if_pos h]
  | case3 r rest h ih =>
      rw [keepLastImage, if_neg h, ih]
      simp [specAssistantTexts]
  | case4 o rest h ih =>
      cases o <;> simp_all [keepLastImage, specAssistantTexts]

theorem imageResults_keepLastImage (outputs : List OutputItem) :
    (imageResults (keepLastImage outputs)).getLast? = (imageResults outputs).getLast? := by
  induction outputs using keepLastImage.induct with
  | case1 => rfl
  | case2 r rest h => rw [keepLastImage, if_pos h]
  | case3 r rest h ih =>
      rw [keepLastImage, if_neg h, ih]
      rw [show imageResults (OutputItem.image_generation_call r :: rest) =
        r :: imageResults rest from rfl]
      rw [getLast?_cons_of_ne_nil r h]
  | case4 o rest h ih =>
      cases o <;> simp_all [keepLastImage, imageResults]

/-- C4 counterexample: a response with two image-generation-call items whose
last result is the empty string. The claim says the last item's result
becomes `ImageState.current`, but the code's truthiness test keeps the prior
value `some "P"`, which differs from `some ""`. -/
theorem last_image_counterexample :
    (applyResponse ⟨some "O", some "P", [], []⟩ "p"
      [OutputItem.image_generation_call "A",
        OutputItem.image_generation_call ""]).last_image_b64 = some "P" ∧
    (some "P" : Option String) ≠ some "" := by
  refine ⟨by decide, by decide⟩

/-- C4 amended: deleting every image-generation-call item but the last leaves
the whole post-state unchanged (earlier results leave no trace in
`ImageState`, the API transcript, or the display log); and
`ImageState.current` becomes the last item's result exactly when that result
is non-empty — when it is empty, or when no image item is present,
`ImageState.current` keeps its prior value. -/
theorem last_image_policy (s : SessionState) (p : String) (outputs : List OutputItem) :
    applyResponse s p (keepLastImage outputs) = applyResponse s p outputs ∧
    (applyResponse s p outputs).last_image_b64 =
      (match (imageResults outputs).getLast? with
        | some r => if r = "" then s.last_image_b64 else some r
        | none => s.last_image_b64) := by
  constructor
  · exact applyResponse_congr _ _ _ _ (by
      rw [parseOutputs_eq, parseOutputs_eq, specAssistantTexts_keepLastImage,
        imageResults_keepLastImage])
  · rw [applyResponse_last, parseOutputs_eq]

/-! ### Transcript never longer than the display log (C8) -/

theorem step_length_le (s : SessionState) (op : Op)
    (hs : s.chat_history.length ≤ s.chat_display.length) :
    (step s op).chat_history.length ≤ (step s op).chat_display.length := by
  cases op with
  | reset => simp [step, resetSession]
  | upload raw =>
      simp only [step, uploadImage]
      by_cases h : s.original_image_b64 = none <;> simp [h, hs]
  | prompt p o =>
      simp only [step, submitPrompt]
      by_cases h : s.original_image_b64 = none
      · simp [h, hs]
      · simp only [h, if_false]
        rw [applyResponse_chat_history, applyResponse_chat_display]
        rcases h2 : (parseOutputs o).2 with _ | r
        · by_cases ht : fullAssistantText o = "" <;>
            simp [h2, ht] <;> omega
        · by_cases ht : fullAssistantText o = "" <;> by_cases hr : r = "" <;>
            simp [h2, ht, hr] <;> omega

theorem run_length_le (ops : List Op) : ∀ s : SessionState,
    s.chat_history.length ≤ s.chat_display.length →
    (run s ops).chat_history.length ≤ (run s ops).chat_display.length := by
  induction ops with
  | nil => intro s hs; exact hs
  | cons op rest ih => intro s hs; exact ih (step s op) (step_length_le s op hs)

/-- C8: in every state reachable from the initial empty session by reset,
upload, and prompt actions, the API transcript is at most as long as the
display log. -/
theorem transcript_le_display (ops : List Op) :
    (run initialState ops).chat_history.length ≤
      (run initialState ops).chat_display.length :=
  run_length_le ops initialState (by simp [initialState])

/-! ### The two image slots are absent together (C9) -/

theorem step_images (s : SessionState) (op : Op)
    (hs : (s.original_image_b64 = none) ↔ (s.last_image_b64 = none)) :
    ((step s op).original_image_b64 = none) ↔
      ((step s op).last_image_b64 = none) := by
  cases op with
  | reset => simp [step, resetSession]
  | upload raw =>
      simp only [step, uploadImage]
      by_cases h : s.original_image_b64 = none
      · rw [if_pos h]
      · rw [if_neg h]; exact hs
  | prompt p o =>
      simp only [step, submitPrompt]
      by_cases h : s.original_image_b64 = none
      · rw [if_pos h]; exact hs
      · rw [if_neg h]
        rw [show (match (Except.ok (applyResponse s p o) : Except String SessionState) with
            | Except.ok s2 => s2
            | Except.error _ => s) = applyResponse s p o from rfl]
        rw [applyResponse_original, applyResponse_last]
        rcases h2 : (parseOutputs o).2 with _ | r
        · exact hs
        · have hred : (match (some r : Option String) with
              | some r => if r = "" then s.last_image_b64 else some r
              | none => s.last_image_b64) =
              if r = "" then s.last_image_b64 else some r := rfl
          rw [hred]
          by_cases hr : r = ""
          · rw [if_pos hr]; exact hs
          · rw [if_neg hr]
            constructor
            · exact fun ho => absurd ho h
            · intro hsome; exact absurd hsome (by simp)

theorem run_images (ops : List Op) : ∀ s : SessionState,
    ((s.original_image_b64 = none) ↔ (s.last_image_b64 = none)) →
    (((run s ops).original_image_b64 = none) ↔
      ((run s ops).last_image_b64 = none)) := by
  induction ops with
  | nil => intro s hs; exact hs
  | cons op rest ih => intro s hs; exact ih (step s op) (step_images s op hs)

/-- C9: in every state reachable from the initial empty session,
`ImageState.original` is absent exactly when `ImageState.current` is absent —
so the code's guard (original image absent) agrees with the spec's
`buildRequest` precondition (current image present). -/
theorem original_iff_current (ops : List Op) :
    ((run initialState ops).original_image_b64 = none) ↔
      ((run initialState ops).last_image_b64 = none) :=
  run_images ops initialState (by simp [initialState])

end GptImage
